import Mathlib

/-!
Verification of the `iothubservice-rs` crate against its specification.

The crate's visible source is a single file, `src/edgelet/iothubservice-rs/src/lib.rs`,
a crate root that declares inner attributes, extern-crate dependencies and two
public modules. We embed that file as a list of Rust items and prove the claims
about the crate root directly. The `apis` and `models` modules themselves are
not part of the visible source; the behaviour the specification requires of
them (JSON model round-tripping, response handling, error taxonomy,
single-exchange calls, cancellation) is modelled from the spec and verified
against those models.
-/

namespace IotHubService

/-! ## Embedding of the crate root `lib.rs` -/

/-- Visibility of a Rust item: `pub` or private (no modifier). -/
inductive Visibility
  | pub
  | priv
deriving DecidableEq, Repr

/-- A top-level Rust item, as the kinds of items a crate root could contain.
Constructors beyond the first three (functions, type definitions, constants,
statics) are present in the embedding so that their absence from `lib.rs`
is a meaningful statement. -/
inductive Item
  | innerAttr (args : List String)
  | externCrate (name : String) (macroUse : Bool)
  | modDecl (vis : Visibility) (name : String)
  | fnDef (vis : Visibility) (name : String)
  | typeDef (vis : Visibility) (name : String)
  | constDef (vis : Visibility) (name : String)
  | staticDef (vis : Visibility) (name : String)
deriving DecidableEq, Repr

/-- The items of `src/edgelet/iothubservice-rs/src/lib.rs`, in source order:
one inner `#![allow(...)]` attribute, seven `extern crate` declarations
(two with `#[macro_use]`), and two `pub mod` declarations. -/
def libRsItems : List Item :=
  [ .innerAttr ["unused_imports", "non_snake_case", "unused_mut", "dead_code"],
    .externCrate "serde_derive" true,
    .externCrate "failure" true,
    .externCrate "futures" false,
    .externCrate "hyper" false,
    .externCrate "serde" false,
    .externCrate "serde_json" false,
    .externCrate "url" false,
    .modDecl .pub "apis",
    .modDecl .pub "models" ]

/-- The module declarations among a list of items, as (visibility, name) pairs. -/
def modDecls (items : List Item) : List (Visibility × String) :=
  items.filterMap fun item =>
    match item with
    | .modDecl v n => some (v, n)
    | _ => none

/-- The names of the crates declared as `extern crate` dependencies. -/
def externCrateNames (items : List Item) : List String :=
  items.filterMap fun item =>
    match item with
    | .externCrate n _ => some n
    | _ => none

/-- Whether an item is purely declarative (attribute, dependency declaration,
or module declaration): such an item defines no function, type, constant or
static and executes no code when the crate is loaded or linked. -/
def Item.isDeclarativeOnly : Item → Bool
  | .innerAttr _ => true
  | .externCrate _ _ => true
  | .modDecl _ _ => true
  | .fnDef _ _ => false
  | .typeDef _ _ => false
  | .constDef _ _ => false
  | .staticDef _ _ => false

/-- The items of the public surface: every item marked `pub`. -/
def publicItems (items : List Item) : List Item :=
  items.filter fun item =>
    match item with
    | .modDecl .pub _ => true
    | .fnDef .pub _ => true
    | .typeDef .pub _ => true
    | .constDef .pub _ => true
    | .staticDef .pub _ => true
    | _ => false

/-! ## Models layer

Modelled from the spec: the `models` module is not part of the visible
source. §3 and §4.1 describe its contract: each model is a named record
with a fixed set of typed, optionally-absent fields, round-trip
serializable to and from JSON; unknown fields on deserialization must not
fail the decode; missing required fields must fail with a deserialization
error identifying the missing field.
-/

/-- A JSON value, the wire format of the service (§6). -/
inductive Json
  | null
  | bool (b : Bool)
  | num (n : Int)
  | str (s : String)
  | arr (elems : List Json)
  | obj (fields : List (String × Json))

/-- Modelled from the spec: the schema of one model type — the field names
of the record together with whether each field is required (§3, §4.1:
"a fixed set of typed, optionally-absent fields"). `true` marks a required
field. -/
structure Schema where
  fields : List (String × Bool)

/-- A model instance: the fields actually present, each with its value. -/
abbrev ModelInst := List (String × Json)

/-- Look up a field by name in a decoded JSON object. -/
def lookupField (obj : List (String × Json)) (name : String) : Option Json :=
  (obj.find? fun p => p.1 == name).map fun p => p.2

/-- Modelled from the spec: a deserialization error — either the payload is
not an object at all, or a required field is missing, in which case the
error identifies that field (§4.1). -/
inductive DecodeError
  | notAnObject
  | missingField (name : String)
deriving DecidableEq, Repr

/-- Decode the declared fields of a schema from the fields of a JSON
object: a declared field that is present is kept, a missing optional field
is skipped, a missing required field is a `DecodeError.missingField`
identifying it, and fields of the object not declared in the schema
are ignored. -/
def decodeFields (obj : List (String × Json)) : List (String × Bool) → Except DecodeError ModelInst
  | [] => .ok []
  | (name, required) :: rest =>
    match lookupField obj name with
    | some v => (decodeFields obj rest).map fun m => (name, v) :: m
    | none =>
      if required then .error (.missingField name)
      else decodeFields obj rest

/-- Modelled from the spec: decoding a JSON payload into a model instance
of the given schema (§4.1). -/
def decode (s : Schema) (j : Json) : Except DecodeError ModelInst :=
  match j with
  | .obj fields => decodeFields fields s.fields
  | _ => .error .notAnObject

/-- Modelled from the spec: encoding a model instance to its JSON wire
form — the object holding exactly the instance's fields (§4.1). -/
def encode (m : ModelInst) : Json := .obj m

/-- A model instance is valid for a schema when its fields are, in order,
a selection of the schema's declared fields that keeps every required
field (§3: a record whose fields match the schema's field names and
optionality). -/
def isValidModel : List (String × Bool) → ModelInst → Bool
  | [], [] => true
  | [], _ :: _ => false
  | (_, required) :: rest, [] => !required && isValidModel rest []
  | (name, required) :: rest, (n, v) :: ms =>
    if n == name then isValidModel rest ms
    else !required && isValidModel rest ((n, v) :: ms)

/-! ## Operations layer

Modelled from the spec: the `apis` module is not part of the visible
source. §4.2 and §7 describe the response mapping and the error taxonomy
of every operation; §5 describes the single-exchange discipline and
cancellation.
-/

/-- Modelled from the spec: a transport-level failure — network, timeout
or TLS, unrelated to service semantics (§4.2, §7 taxonomy item 1). -/
inductive TransportFault
  | connectionRefused
  | timeout
  | tlsFailure
deriving DecidableEq, Repr

/-- Modelled from the spec: the outcome of one raw request/response
exchange through the transport: either a status code and a body, or a
transport fault. -/
inductive TransportResult
  | success (status : Nat) (body : Json)
  | fault (f : TransportFault)

/-- Modelled from the spec: the error taxonomy surfaced to the caller
(§7): a transport error, a decode error, a service error carrying status
code and parsed error detail, a synthesized service error carrying status
code and raw body when the error payload does not match its schema
(§4.2), and a cancellation error (§5, §8). -/
inductive ApiFailure
  | transport (f : TransportFault)
  | decodeFailure (e : DecodeError)
  | service (status : Nat) (detail : ModelInst)
  | serviceRaw (status : Nat) (rawBody : Json)
  | canceled

/-- The three taxonomy kinds of §7, plus cancellation (§5). -/
inductive ErrorKind
  | transportKind
  | decodeKind
  | serviceKind
  | cancelKind
deriving DecidableEq, Repr

/-- The taxonomy kind of an error: each `ApiFailure` has exactly one. -/
def ApiFailure.kind : ApiFailure → ErrorKind
  | .transport _ => .transportKind
  | .decodeFailure _ => .decodeKind
  | .service _ _ => .serviceKind
  | .serviceRaw _ _ => .serviceKind
  | .canceled => .cancelKind

/-- Whether a status code is a success (2xx) status. -/
def is2xx (status : Nat) : Bool := 200 ≤ status && status < 300

/-- Modelled from the spec: the response mapping of every operation
(§4.2): a 2xx response has its body decoded into the declared success
model; a non-2xx response has its body decoded into the declared error
model, yielding a service error with the status code and the parsed
fields, or, when the body does not match the error schema, a synthesized
error carrying the status code and the raw body. -/
def handleResponse (success errModel : Schema) (status : Nat) (body : Json) :
    Except ApiFailure ModelInst :=
  if is2xx status then
    match decode success body with
    | .ok m => .ok m
    | .error e => .error (.decodeFailure e)
  else
    match decode errModel body with
    | .ok detail => .error (.service status detail)
    | .error _ => .error (.serviceRaw status body)

/-- Modelled from the spec: one operation call as a function of the
outcome of its single transport exchange (§2 control flow, §4.2): a
transport fault becomes a transport error, a response goes through the
response mapping. -/
def callOperation (success errModel : Schema) (r : TransportResult) :
    Except ApiFailure ModelInst :=
  match r with
  | .fault f => .error (.transport f)
  | .success status body => handleResponse success errModel status body

/-- Modelled from the spec: the transport's state, owned by the transport
collaborator — the number of request/response exchanges performed so far
(§5: the connection pool is the only shared resource). -/
structure TransportState where
  exchanges : Nat
deriving DecidableEq, Repr

/-- Modelled from the spec: a network environment assigning an outcome to
each exchange, numbered in the order the transport performs them. -/
def Network := Nat → TransportResult

/-- Perform one raw exchange: consume the next outcome and count it. -/
def performExchange (net : Network) (st : TransportState) :
    TransportResult × TransportState :=
  (net st.exchanges, ⟨st.exchanges + 1⟩)

/-- Modelled from the spec: invoking one endpoint function (§4.2, §5):
exactly one exchange is performed and its outcome is mapped through
`callOperation`; no retry, caching or batching. -/
def invokeOperation (success errModel : Schema) (net : Network) (st : TransportState) :
    Except ApiFailure ModelInst × TransportState :=
  let (r, st') := performExchange net st
  (callOperation success errModel r, st')

/-- Modelled from the spec: an observable event of one in-flight call
(§5): either the caller's cancellation signal arrives, or the transport
completes the exchange with an outcome. -/
inductive CallEvent
  | cancelSignal
  | transportDone (r : TransportResult)

/-- Modelled from the spec: the result of an in-flight call given the
ordered events it observes (§5, §8): the first event decides — a
cancellation signal arriving first yields the cancellation error, a
transport completion arriving first is mapped through `callOperation`;
`none` while no event has arrived (still in flight). -/
def runCall (success errModel : Schema) :
    List CallEvent → Option (Except ApiFailure ModelInst)
  | [] => none
  | .cancelSignal :: _ => some (.error .canceled)
  | .transportDone r :: _ => some (callOperation success errModel r)

/-! ## Helper lemmas -/

/-- Looking up a name that is absent from an object's fields yields `none`. -/
theorem lookupField_eq_none (obj : List (String × Json)) (name : String)
    (h : name ∉ obj.map Prod.fst) : lookupField obj name = none := by
  induction obj with
  | nil => rfl
  | cons p ps ih =>
    simp only [List.map_cons, List.mem_cons] at h
    push_neg at h
    simp only [lookupField, List.find?]
    rw [show (p.1 == name) = false from beq_eq_false_iff_ne.mpr fun e => h.1 e.symm]
    exact ih h.2

/-- Looking up a name different from the head field's name skips the head. -/
theorem lookupField_cons_ne (m : List (String × Json)) (name n : String) (v : Json)
    (h : n ≠ name) : lookupField ((name, v) :: m) n = lookupField m n := by
  simp only [lookupField, List.find?]
  rw [show ((name, v).1 == n) = false from beq_eq_false_iff_ne.mpr fun e => h e.symm]

/-- A head field whose name no schema field carries does not affect decoding. -/
theorem decodeFields_cons_not_mem (schema : List (String × Bool))
    (m : List (String × Json)) (name : String) (v : Json)
    (h : name ∉ schema.map Prod.fst) :
    decodeFields ((name, v) :: m) schema = decodeFields m schema := by
  induction schema with
  | nil => rfl
  | cons f rest ih =>
    obtain ⟨n, req⟩ := f
    simp only [List.map_cons, List.mem_cons] at h
    push_neg at h
    simp only [decodeFields]
    rw [lookupField_cons_ne m name n v fun e => h.1 e.symm, ih h.2]

/-- Every field name of a valid model instance is declared in the schema. -/
theorem isValidModel_names_subset (schema : List (String × Bool)) (m : ModelInst)
    (h : isValidModel schema m = true) :
    ∀ x ∈ m.map Prod.fst, x ∈ schema.map Prod.fst := by
  induction schema generalizing m with
  | nil =>
    cases m with
    | nil => simp
    | cons p ps => simp [isValidModel] at h
  | cons f rest ih =>
    obtain ⟨name, req⟩ := f
    cases m with
    | nil => simp
    | cons p ps =>
      obtain ⟨n, v⟩ := p
      simp only [isValidModel] at h
      by_cases hn : (n == name) = true
      · rw [if_pos hn] at h
        intro x hx
        simp only [List.map_cons, List.mem_cons] at hx ⊢
        rcases hx with rfl | hx
        · exact Or.inl (eq_of_beq hn)
        · exact Or.inr (ih ps h x hx)
      · rw [if_neg hn] at h
        simp only [Bool.and_eq_true] at h
        intro x hx
        simp only [List.map_cons, List.mem_cons]
        exact Or.inr (ih ((n, v) :: ps) h.2 x hx)

/-- Decoding a valid model instance's own fields against a duplicate-free
schema recovers the instance exactly. -/
theorem decodeFields_self (schema : List (String × Bool)) (m : ModelInst)
    (hnd : (schema.map Prod.fst).Nodup) (h : isValidModel schema m = true) :
    decodeFields m schema = .ok m := by
  induction schema generalizing m with
  | nil =>
    cases m with
    | nil => rfl
    | cons p ps => simp [isValidModel] at h
  | cons f rest ih =>
    obtain ⟨name, req⟩ := f
    simp only [List.map_cons, List.nodup_cons] at hnd
    cases m with
    | nil =>
      simp only [isValidModel, Bool.and_eq_true, Bool.not_eq_true'] at h
      have hl : lookupField ([] : List (String × Json)) name = none := rfl
      simp only [decodeFields, hl, h.1, Bool.false_eq_true, if_false]
      exact ih [] hnd.2 h.2
    | cons p ps =>
      obtain ⟨n, v⟩ := p
      simp only [isValidModel] at h
      by_cases hn : (n == name) = true
      · rw [if_pos hn] at h
        have hne : n = name := eq_of_beq hn
        subst hne
        have hl : lookupField ((n, v) :: ps) n = some v := by
          simp [lookupField, List.find?]
        simp only [decodeFields, hl]
        rw [decodeFields_cons_not_mem rest ps n v hnd.1, ih ps hnd.2 h]
        rfl
      · rw [if_neg hn] at h
        simp only [Bool.and_eq_true, Bool.not_eq_true'] at h
        have hmem : name ∉ ((n, v) :: ps : ModelInst).map Prod.fst := fun hx =>
          hnd.1 (isValidModel_names_subset rest ((n, v) :: ps) h.2 name hx)
        simp only [decodeFields, lookupField_eq_none _ _ hmem, h.1,
          Bool.false_eq_true, if_false]
        exact ih ((n, v) :: ps) hnd.2 h.2

/-- If some required field of the schema is absent from the object, decoding
the declared fields fails with an error identifying a missing required field. -/
theorem decodeFields_missing (schema : List (String × Bool))
    (obj : List (String × Json)) (r : String)
    (hreq : (r, true) ∈ schema) (hmiss : lookupField obj r = none) :
    ∃ f, decodeFields obj schema = .error (.missingField f) ∧
      (f, true) ∈ schema ∧ lookupField obj f = none := by
  induction schema with
  | nil => simp at hreq
  | cons p rest ih =>
    obtain ⟨name, req⟩ := p
    cases hlookup : lookupField obj name with
    | some v =>
      have hr : (r, true) ∈ rest := by
        rcases List.mem_cons.mp hreq with heq | hmem
        · obtain ⟨rfl, rfl⟩ := Prod.mk.injEq .. ▸ heq
          rw [hlookup] at hmiss
          exact absurd hmiss (by simp)
        · exact hmem
      obtain ⟨f, hf1, hf2, hf3⟩ := ih hr
      exact ⟨f, by simp only [decodeFields, hlookup, hf1]; rfl,
        List.mem_cons.mpr (Or.inr hf2), hf3⟩
    | none =>
      cases req with
      | true =>
        exact ⟨name, by simp [decodeFields, hlookup],
          List.mem_cons.mpr (Or.inl rfl), hlookup⟩
      | false =>
        have hr : (r, true) ∈ rest := by
          rcases List.mem_cons.mp hreq with heq | hmem
          · exact absurd heq (by simp)
          · exact hmem
        obtain ⟨f, hf1, hf2, hf3⟩ := ih hr
        exact ⟨f, by simp only [decodeFields, hlookup]; simpa using hf1,
          List.mem_cons.mpr (Or.inr hf2), hf3⟩

/-- Whether every required field of the schema is present in the object. -/
def requiredPresent (schema : List (String × Bool)) (obj : List (String × Json)) : Bool :=
  schema.all fun f => !f.2 || (lookupField obj f.1).isSome

/-- If every required field of the schema is present in the object, decoding
the declared fields succeeds, and every field of the result is declared in
the schema. -/
theorem decodeFields_total (schema : List (String × Bool))
    (obj : List (String × Json))
    (h : requiredPresent schema obj = true) :
    ∃ m, decodeFields obj schema = .ok m ∧
      ∀ p ∈ m, p.1 ∈ schema.map Prod.fst := by
  induction schema with
  | nil => exact ⟨[], rfl, by simp⟩
  | cons p rest ih =>
    obtain ⟨name, req⟩ := p
    simp only [requiredPresent, List.all_cons, Bool.and_eq_true] at h
    obtain ⟨m, hm, hmem⟩ := ih h.2
    cases hlookup : lookupField obj name with
    | some v =>
      refine ⟨(name, v) :: m, by simp only [decodeFields, hlookup, hm]; rfl, ?_⟩
      intro q hq
      rcases List.mem_cons.mp hq with rfl | hqm
      · simp
      · simp only [List.map_cons, List.mem_cons]
        exact Or.inr (hmem q hqm)
    | none =>
      have hreq0 : req = false := by
        have h1 := h.1
        rw [hlookup] at h1
        simpa using h1
      subst hreq0
      refine ⟨m, by simpa [decodeFields, hlookup] using hm, ?_⟩
      intro q hq
      simp only [List.map_cons, List.mem_cons]
      exact Or.inr (hmem q hq)

/-! ## Concrete example values, used by the witnesses -/

/-- An example schema: a device record with a required identifier and an
optional status. -/
def exSchema : Schema := ⟨[("deviceId", true), ("status", false)]⟩

/-- An example error schema: a required code and a required message. -/
def exErrSchema : Schema := ⟨[("code", true), ("message", true)]⟩

/-- An example valid model instance of `exSchema`. -/
def exModel : ModelInst := [("deviceId", .str "edge01"), ("status", .str "enabled")]

/-- An example parsed error detail of `exErrSchema`. -/
def exErrDetail : ModelInst := [("code", .num 404), ("message", .str "not found")]

/-- An example network in which every exchange faults with a refused
connection. -/
def exNet : Network := fun _ => .fault .connectionRefused

/-! ## Claims -/

/-- C1: the crate root declares exactly two public modules, `apis` and
`models`, and declares no other modules — the module declarations of
`lib.rs` are precisely `pub mod apis;` and `pub mod models;`, in that
order. -/
theorem claim1_crate_root_two_public_modules :
    modDecls libRsItems = [(.pub, "apis"), (.pub, "models")] := rfl

/-- C2: the crate root declares dependencies on an HTTP client (`hyper`),
a futures abstraction (`futures`), and JSON serialization (`serde`,
`serde_json`, with `serde_derive` for the derive macros), and every one of
its items is purely declarative — an attribute, an `extern crate`
declaration, or a module declaration — so it only wires together
externally generated code and contains no business logic of its own. -/
theorem claim2_crate_root_dependencies :
    "hyper" ∈ externCrateNames libRsItems ∧
    "futures" ∈ externCrateNames libRsItems ∧
    "serde" ∈ externCrateNames libRsItems ∧
    "serde_json" ∈ externCrateNames libRsItems ∧
    "serde_derive" ∈ externCrateNames libRsItems ∧
    libRsItems.all Item.isDeclarativeOnly = true := by
  decide

/-- C3: for every schema without duplicate field names and every valid
model instance of it, decoding the encoding of the instance yields the
instance again — the JSON round trip is lossless. -/
theorem claim3_decode_encode_roundtrip (s : Schema) (m : ModelInst)
    (hnd : (s.fields.map Prod.fst).Nodup)
    (hm : isValidModel s.fields m = true) :
    decode s (encode m) = .ok m :=
  decodeFields_self s.fields m hnd hm

/-- Witness for C3 at a concrete schema and model instance. -/
theorem claim3_witness :
    (exSchema.fields.map Prod.fst).Nodup ∧
    isValidModel exSchema.fields exModel = true ∧
    decode exSchema (encode exModel) = .ok exModel :=
  ⟨by decide, rfl, claim3_decode_encode_roundtrip exSchema exModel (by decide) rfl⟩

/-- C4: for every payload missing a required field of the target schema,
decoding fails with a deserialization error identifying a missing required
field of the schema; it never succeeds by silently substituting a default
value. -/
theorem claim4_missing_required_field_fails (s : Schema)
    (obj : List (String × Json)) (r : String)
    (hreq : (r, true) ∈ s.fields) (hmiss : lookupField obj r = none) :
    ∃ f, decode s (.obj obj) = .error (.missingField f) ∧
      (f, true) ∈ s.fields ∧ lookupField obj f = none :=
  decodeFields_missing s.fields obj r hreq hmiss

/-- Witness for C4: a payload for `exSchema` that carries only the
optional `status` field fails with an error naming `deviceId`. -/
theorem claim4_witness :
    ("deviceId", true) ∈ exSchema.fields ∧
    lookupField [("status", Json.str "enabled")] "deviceId" = none ∧
    ∃ f, decode exSchema (.obj [("status", Json.str "enabled")]) =
        .error (.missingField f) ∧
      (f, true) ∈ exSchema.fields ∧
      lookupField [("status", Json.str "enabled")] f = none :=
  ⟨by decide, rfl,
    claim4_missing_required_field_fails exSchema
      [("status", Json.str "enabled")] "deviceId" (by decide) rfl⟩

/-- C5: for every payload whose required fields are all present, decoding
succeeds and every field of the result is declared in the schema, so
undeclared extra fields are discarded; moreover prepending a field whose
name the schema does not declare leaves the decode result unchanged, so
unknown fields never cause a decode failure. -/
theorem claim5_unknown_fields_discarded (s : Schema)
    (obj : List (String × Json)) (extraName : String) (v : Json)
    (hextra : extraName ∉ s.fields.map Prod.fst)
    (hreq : requiredPresent s.fields obj = true) :
    (∃ m, decode s (.obj obj) = .ok m ∧ ∀ p ∈ m, p.1 ∈ s.fields.map Prod.fst) ∧
    decode s (.obj ((extraName, v) :: obj)) = decode s (.obj obj) :=
  ⟨decodeFields_total s.fields obj hreq,
    decodeFields_cons_not_mem s.fields obj extraName v hextra⟩

/-- Witness for C5: a payload for `exSchema` with an undeclared
`firmware` field decodes successfully and identically to the payload
without it. -/
theorem claim5_witness :
    ("firmware" ∉ exSchema.fields.map Prod.fst) ∧
    (∃ m, decode exSchema (.obj exModel) = .ok m ∧
      ∀ p ∈ m, p.1 ∈ exSchema.fields.map Prod.fst) ∧
    decode exSchema (.obj (("firmware", Json.str "1.0") :: exModel)) =
      decode exSchema (.obj exModel) := by
  have h := claim5_unknown_fields_discarded exSchema exModel "firmware"
    (Json.str "1.0") (by decide) rfl
  exact And.intro (by decide) (And.intro h.1 h.2)

/-- C6: a 2xx response whose body decodes into the declared success model
returns that model, and a non-2xx response whose body matches the declared
error schema yields a service error carrying the status code and the
parsed error fields. -/
theorem claim6_response_mapping (success errModel : Schema) (status : Nat)
    (body : Json) :
    (∀ m, is2xx status = true → decode success body = .ok m →
      handleResponse success errModel status body = .ok m) ∧
    (∀ detail, is2xx status = false → decode errModel body = .ok detail →
      handleResponse success errModel status body =
        .error (.service status detail)) := by
  constructor
  · intro m h2 hdec
    simp [handleResponse, h2, hdec]
  · intro detail h2 hdec
    simp [handleResponse, h2, hdec]

/-- Witness for C6: a 200 response decodes to the success model; a 404
response with a well-formed error body yields a service error carrying
status 404 and the parsed fields. -/
theorem claim6_witness :
    handleResponse exSchema exErrSchema 200 (encode exModel) = .ok exModel ∧
    handleResponse exSchema exErrSchema 404 (encode exErrDetail) =
      .error (.service 404 exErrDetail) :=
  ⟨(claim6_response_mapping exSchema exErrSchema 200 (encode exModel)).1
      exModel rfl rfl,
    (claim6_response_mapping exSchema exErrSchema 404 (encode exErrDetail)).2
      exErrDetail rfl rfl⟩

/-- C7: a transport fault yields a transport error; the transport kind is
distinct from the decode and service kinds; and any error of transport
kind is a `transport` value — never a decode or service error — so the
error kinds surfaced to the caller are mutually exclusive. -/
theorem claim7_transport_error_distinct (success errModel : Schema)
    (f : TransportFault) :
    callOperation success errModel (.fault f) = .error (.transport f) ∧
    (ApiFailure.transport f).kind = .transportKind ∧
    ErrorKind.transportKind ≠ ErrorKind.decodeKind ∧
    ErrorKind.transportKind ≠ ErrorKind.serviceKind ∧
    (∀ e : ApiFailure, e.kind = .transportKind → ∃ g, e = .transport g) := by
  refine ⟨rfl, rfl, by decide, by decide, ?_⟩
  intro e he
  cases e <;> simp_all [ApiFailure.kind]

/-- Witness for C7 at a concrete timeout fault. -/
theorem claim7_witness :
    callOperation exSchema exErrSchema (.fault .timeout) =
      .error (.transport .timeout) ∧
    (∃ g, ApiFailure.transport .timeout = .transport g) :=
  ⟨(claim7_transport_error_distinct exSchema exErrSchema .timeout).1,
    (claim7_transport_error_distinct exSchema exErrSchema .timeout).2.2.2.2
      (.transport .timeout) rfl⟩

/-- C8: invoking an endpoint performs exactly one request/response
exchange — the transport's exchange count grows by exactly one, whatever
the outcome — and a faulting exchange is surfaced as a transport error,
not retried or suppressed. -/
theorem claim8_single_exchange_no_retry (success errModel : Schema)
    (net : Network) (st : TransportState) :
    (invokeOperation success errModel net st).2.exchanges = st.exchanges + 1 ∧
    (∀ f, net st.exchanges = .fault f →
      (invokeOperation success errModel net st).1 = .error (.transport f)) := by
  refine ⟨rfl, ?_⟩
  intro f h
  simp [invokeOperation, performExchange, h, callOperation]

/-- Witness for C8: on a network refusing every connection, one invocation
performs exactly one exchange and surfaces the transport error. -/
theorem claim8_witness :
    (invokeOperation exSchema exErrSchema exNet ⟨0⟩).2.exchanges = 1 ∧
    (invokeOperation exSchema exErrSchema exNet ⟨0⟩).1 =
      .error (.transport .connectionRefused) :=
  ⟨(claim8_single_exchange_no_retry exSchema exErrSchema exNet ⟨0⟩).1,
    (claim8_single_exchange_no_retry exSchema exErrSchema exNet ⟨0⟩).2
      .connectionRefused rfl⟩

/-- C9: a call whose first observed event is the caller's cancellation
signal yields the cancellation error, and never delivers a decoded
success result or a service-error result. -/
theorem claim9_cancellation (success errModel : Schema)
    (evs : List CallEvent) (h : evs.head? = some .cancelSignal) :
    runCall success errModel evs = some (.error .canceled) ∧
    (∀ m, runCall success errModel evs ≠ some (.ok m)) ∧
    (∀ st detail, runCall success errModel evs ≠
      some (.error (.service st detail))) := by
  cases evs with
  | nil => simp at h
  | cons e rest =>
    simp only [List.head?] at h
    obtain rfl : e = .cancelSignal := Option.some.inj h
    refine ⟨rfl, ?_, ?_⟩
    · intro m heq
      simp [runCall] at heq
    · intro st detail heq
      simp [runCall] at heq

/-- Witness for C9: a cancellation signal followed by a late transport
completion still yields the cancellation error. -/
theorem claim9_witness :
    runCall exSchema exErrSchema
      [.cancelSignal, .transportDone (.success 200 (encode exModel))] =
      some (.error .canceled) :=
  (claim9_cancellation exSchema exErrSchema
    [.cancelSignal, .transportDone (.success 200 (encode exModel))] rfl).1

/-- C10: the crate root defines no functions, types, constants or statics
— every item of `lib.rs` is purely declarative, so loading or linking the
crate executes no code and mutates no state at the root — and its entire
public surface is the two module declarations. -/
theorem claim10_crate_root_declarative :
    libRsItems.all Item.isDeclarativeOnly = true ∧
    publicItems libRsItems =
      [.modDecl .pub "apis", .modDecl .pub "models"] := by
  decide

end IotHubService
